import Mathlib

/-!
Verification of the InboxWrangler core against its specification.

The Python sources (`analyzer.py`, `scorer.py`, `organizer.py`, `config.py`)
are shallowly embedded below: strings are Lean `String`s manipulated through
their character lists, Python floats are `ℚ`, Python dicts are association
lists in insertion order, Python sets are modelled as insertion-ordered
duplicate-free lists (CPython set iteration order is unspecified; the claims
settled here do not depend on tie order), and fallible code returns
`Option`/`Except`.  Definitions come first, in source order; the theorems
about them follow.
-/

/-- The 26 uppercase/lowercase ASCII letter pairs; `str.lower`/`str.upper`
are modelled for the ASCII range the repository's data uses. -/
def upperLower : List (Char × Char) :=
  [('A','a'), ('B','b'), ('C','c'), ('D','d'), ('E','e'), ('F','f'), ('G','g'),
   ('H','h'), ('I','i'), ('J','j'), ('K','k'), ('L','l'), ('M','m'), ('N','n'),
   ('O','o'), ('P','p'), ('Q','q'), ('R','r'), ('S','s'), ('T','t'), ('U','u'),
   ('V','v'), ('W','w'), ('X','x'), ('Y','y'), ('Z','z')]

/-- ASCII lowercase of one character (identity off `A`-`Z`). -/
def lowerChar (c : Char) : Char :=
  ((upperLower.find? (fun p => p.1 = c)).map (fun p => p.2)).getD c

/-- ASCII uppercase of one character (identity off `a`-`z`). -/
def upperChar (c : Char) : Char :=
  ((upperLower.find? (fun p => p.2 = c)).map (fun p => p.1)).getD c

/-- Python `s.lower()` (ASCII model). -/
def sLower (s : String) : String := ⟨s.data.map lowerChar⟩

/-- Python `'@' in s`. -/
def hasAt (s : String) : Bool := s.data.contains '@'

/-- Here `leadsWith n l` is Python `l.startswith(n)` on character lists. -/
def leadsWith : List Char → List Char → Bool
  | [], _ => true
  | _ :: _, [] => false
  | a :: as, b :: bs => a = b && leadsWith as bs

/-- Here `hasSub n l` is Python `n in l` (contiguous substring test). -/
def hasSub : List Char → List Char → Bool
  | n, [] => n.isEmpty
  | n, c :: t => leadsWith n (c :: t) || hasSub n t

/-- Python `str.strip()` whitespace set (ASCII part). -/
def isPySpace (c : Char) : Bool :=
  c = ' ' || c = '\t' || c = '\n' || c = '\r' || c = '\x0b' || c = '\x0c'

/-- Python `s.strip()`. -/
def pyStrip (s : String) : String :=
  ⟨((s.data.dropWhile isPySpace).reverse.dropWhile isPySpace).reverse⟩

/-- A word character for `re.split(r'\W+', ...)`: `[A-Za-z0-9_]`. -/
def isWordChar (c : Char) : Bool := c.isAlphanum || c = '_'

/-- Split a list at every character satisfying `p`, keeping empty pieces,
as Python `re.split` does with a single-character class. -/
def splitOnPred (p : Char → Bool) : List Char → List (List Char)
  | [] => [[]]
  | c :: cs =>
    match splitOnPred p cs with
    | [] => [[]]
    | h :: t => if p c then [] :: h :: t else (c :: h) :: t

/-- Python `[w for w in re.split(r'\W+', s) if len(w) > 2]` — every use in the
source filters the pieces to length > 2, which also discards the empty
pieces that distinguish `\W+` from single-character splitting. -/
def nameWordsOf (s : String) : List (List Char) :=
  (splitOnPred (fun c => !isWordChar c) s.data).filter (fun w => w.length > 2)

/-- Python `re.split(r'[._-]', local)` (empty pieces kept, as in the source). -/
def splitSeps (l : List Char) : List (List Char) :=
  splitOnPred (fun c => c = '.' || c = '_' || c = '-') l

/-- Python `email.split('@')[0]`. -/
def localPart (email : String) : List Char :=
  email.data.takeWhile (fun c => c ≠ '@')

/-- Python `local.replace('.', '').replace('-', '').replace('_', '')`. -/
def removeSeps (l : List Char) : List Char :=
  l.filter (fun c => !(c = '.' || c = '_' || c = '-'))

/-- First-match association lookup (`d.get(k)` / `k in d`). -/
def lookupA {α : Type} : List (String × α) → String → Option α
  | [], _ => none
  | (k', v) :: t, k => if k' = k then some v else lookupA t k

/-- Python `d[k] = v`: overwrite in place if the key exists, else append
(Python dicts keep the original key position on overwrite). -/
def mapInsert {α : Type} : List (String × α) → String → α → List (String × α)
  | [], k, v => [(k, v)]
  | (k', v') :: t, k, v =>
    if k' = k then (k, v) :: t else (k', v') :: mapInsert t k v

/-- Python `name_to_emails[k].add(e)` on a `defaultdict(set)` rendered as an
insertion-ordered multimap with duplicate-free value lists. -/
def addToMultimap : List (String × List String) → String → String →
    List (String × List String)
  | [], k, e => [(k, [e])]
  | (k', es) :: t, k, e =>
    if k' = k then (k', if es.contains e then es else es ++ [e]) :: t
    else (k', es) :: addToMultimap t k e

/-- The fields of one `email_tracking` record that
`_initialize_contact_map` reads (`data.get(..., '')`). -/
structure TrackRecord where
  sender : String
  rawSender : String
  senderName : String
  senderEmail : String

/-- The alias map `self.contact_map` (display name → address), a Python
dict in insertion order. -/
abbrev ContactMap := List (String × String)

/-- Step 0 of `_initialize_contact_map` (analyzer.py:246-274): collect
`raw_sender_pairs` from `sender`/`raw_sender` disagreements and from the
explicit `sender_name`/`sender_email` fields, already lowercased. -/
def raw_sender_pairs (records : List TrackRecord) : List (String × String) :=
  records.flatMap (fun data =>
    let sender := pyStrip data.sender
    let raw := pyStrip data.rawSender
    let sn := pyStrip data.senderName
    let se := pyStrip data.senderEmail
    let p1 : List (String × String) :=
      if sender ≠ "" ∧ raw ≠ "" ∧ sender ≠ raw then
        if hasAt sender ∧ ¬ (hasAt raw) then [(sLower raw, sLower sender)]
        else if hasAt raw ∧ ¬ (hasAt sender) then [(sLower sender, sLower raw)]
        else []
      else []
    let p2 : List (String × String) :=
      if sn ≠ "" ∧ se ≠ "" ∧ hasAt se then [(sLower sn, sLower se)] else []
    p1 ++ p2)

/-- The candidate condition of analyzer.py:333-334/350-351: a substantial
name fragment occurs in the address local-part or vice versa. -/
def correspondenceMatch (nameLower : String) (emailLocal : List Char) : Bool :=
  (nameWordsOf nameLower).any (fun w => hasSub w emailLocal) ||
  (splitSeps emailLocal).any (fun p => hasSub p nameLower.data)

/-- Step 2 of `_initialize_contact_map` (analyzer.py:306-366) restricted to
the `name_to_emails` side (`email_to_names` and the Step-1 `name_parts`
table are written but never read afterwards). First the raw pairs are
added, then the pairwise sender correspondences, then the
name-component pass over the keys present at that point. -/
def name_to_emails (records : List TrackRecord) : List (String × List String) :=
  let m0 := (raw_sender_pairs records).foldl
    (fun m p => addToMultimap m p.1 p.2) []
  let m1 := records.foldl (fun m data =>
    let sender := pyStrip data.sender
    if sender = "" then m
    else if hasAt sender then
      -- analyzer.py:321-337: an address looks for display names elsewhere
      let email := sLower sender
      records.foldl (fun m other =>
        let os := pyStrip other.sender
        if os ≠ "" ∧ ¬ (hasAt os) then
          let nameLower := sLower os
          if correspondenceMatch nameLower (localPart email) then
            addToMultimap m nameLower email
          else m
        else m) m
    else
      -- analyzer.py:338-354: a display name looks for addresses elsewhere
      let name := sLower sender
      records.foldl (fun m other =>
        let os := pyStrip other.sender
        if os ≠ "" ∧ hasAt os then
          let email := sLower os
          if correspondenceMatch name (localPart email) then
            addToMultimap m name email
          else m
        else m) m) m0
  -- analyzer.py:356-366: name-component pass over a snapshot of the keys;
  -- the whole (unstripped, lowercased) sender string is searched here
  (m1.map (fun p => p.1)).foldl (fun m name =>
    records.foldl (fun m data =>
      let sender := sLower data.sender
      if hasAt sender ∧ (nameWordsOf name).any (fun w => hasSub w sender.data)
      then addToMultimap m name sender
      else m) m) m1

/-- The fuzzy match score of analyzer.py:380-425 for one name/address
candidate pair. -/
def match_score (name : String) (email : String) : Nat :=
  let name_words := nameWordsOf name
  let email_local := localPart email
  let parts := splitSeps email_local
  let s1 := (name_words.map (fun w =>
    if hasSub w email_local then 2
    else if parts.any (fun p => hasSub w p) then 1 else 0)).sum
  let s2 := (parts.map (fun p =>
    if p.length > 2 && hasSub p name.data then 2
    else if name_words.any (fun w => hasSub p w) then 1 else 0)).sum
  let s3 := if name_words.flatten = removeSeps email_local then 5 else 0
  let s4 :=
    match name_words with
    | w0 :: w1 :: rest =>
      if (match w0.head? with
          | some c0 => leadsWith [c0] email_local
          | none => false)
         && leadsWith ((w1 :: rest).getLastD []) (email_local.drop 1)
      then 4 else 0
    | _ => 0
  s1 + s2 + s3 + s4

/-- The best-candidate fold of analyzer.py:383-429: strictly greater
scores replace the running best, starting from `best_score = 0`,
`best_email = None`. -/
def resolve_best (name : String) (emails : List String) :
    Option (String × Nat) :=
  emails.foldl (fun acc e =>
    let sc := match_score name e
    match acc with
    | none => if sc > 0 then some (e, sc) else none
    | some (_, bs) => if sc > bs then some (e, sc) else acc) none

/-- Step 3 of `_initialize_contact_map` (analyzer.py:378-434): map each
display name to its best-scoring candidate when the score reaches the
acceptance floor 1. -/
def step3 (n2e : List (String × List String)) : ContactMap :=
  n2e.foldl (fun m p =>
    if p.2 ≠ [] then
      match resolve_best p.1 p.2 with
      | some (be, bs) =>
        if be ≠ "" ∧ bs ≥ 1 then mapInsert m p.1 be else m
      | none => m
    else m) []

/-- Step 4 of `_initialize_contact_map` (analyzer.py:436-444): direct
mappings are added only for names not already present in the map. -/
def step4 (m : ContactMap) (pairs : List (String × String)) : ContactMap :=
  pairs.foldl (fun m p =>
    if p.1 ≠ "" ∧ p.2 ≠ "" ∧ hasAt p.2 then
      match lookupA m p.1 with
      | none => mapInsert m p.1 p.2
      | some _ => m
    else m) m

/-- The map build `_initialize_contact_map` (analyzer.py:232-456) as run on an empty
map (with a non-empty map the method returns without rebuilding). -/
def initialize_contact_map (records : List TrackRecord) : ContactMap :=
  step4 (step3 (name_to_emails records)) (raw_sender_pairs records)

/-- The method `_normalize_contact` (analyzer.py:462-490). -/
def normalize_contact (cm : ContactMap) (contact : String) : String :=
  if contact = "" then "unknown"
  else
    let contact_lower := sLower contact
    if hasAt contact_lower then contact_lower
    else
      match lookupA cm contact_lower with
      | some v => v
      | none => contact_lower

/-- The address of the first direct pair carrying a given name that passes
the Step-4 validity test (analyzer.py:439). -/
def firstValidPair (name : String) : List (String × String) → Option String
  | [] => none
  | (dn, e) :: rest =>
    if (dn ≠ "" ∧ e ≠ "" ∧ hasAt e) ∧ dn = name then some e
    else firstValidPair name rest

/-- The tracking records of the C2 counterexample: one message carries the
direct pair `("john doe", "x@y.com")`, another message's sender is the
address `john.doe@other.com`. -/
def c2records : List TrackRecord :=
  [⟨"x@y.com", "john doe", "", ""⟩, ⟨"john.doe@other.com", "", "", ""⟩]

/-- The check-count transition of analyzer.py:951-984 for one observed
message on one scan: `prev` is the stored record's `check_count`
(`none` for an unseen message, read as 0), `is_read` the
platform-reported read flag at scan time. -/
def new_check_count (prev : Option Nat) (is_read : Bool) : Nat :=
  if is_read then 0 else prev.getD 0 + 1

/-- The stored `check_count` after a sequence of scans, each updating the
tracking record as analyzer.py:989-999 does. -/
def run_scans (init : Option Nat) (flags : List Bool) : Option Nat :=
  flags.foldl (fun st is_read => some (new_check_count st is_read)) init

/-- The configuration dict restricted to the numeric and boolean keys the
embedded code reads; `config.get(k, d)` is association lookup with an
inline default. -/
structure PyConfig where
  num : List (String × ℚ)
  bools : List (String × Bool)

/-- Python `config.get(key, default)` for a numeric value. -/
def cfg_num (config : PyConfig) (key : String) (default : ℚ) : ℚ :=
  (lookupA config.num key).getD default

/-- Python `config.get(key, default)` for a boolean value. -/
def cfg_bool (config : PyConfig) (key : String) (default : Bool) : Bool :=
  (lookupA config.bools key).getD default

/-- The five raw component weights read at scorer.py:325-329 with their
inline defaults. -/
def score_weights (config : PyConfig) : ℚ × ℚ × ℚ × ℚ × ℚ :=
  (cfg_num config "sender_weight" 0.4,
   cfg_num config "topic_weight" 0.25,
   cfg_num config "temporal_weight" 0.15,
   cfg_num config "message_state_weight" 0.1,
   cfg_num config "recipient_weight" 0.1)

/-- scorer.py:331-340: if the weights do not sum to 1, each is multiplied
by `factor = 1.0 / total_weight`. -/
def renorm_weights (w : ℚ × ℚ × ℚ × ℚ × ℚ) : ℚ × ℚ × ℚ × ℚ × ℚ :=
  let total := w.1 + w.2.1 + w.2.2.1 + w.2.2.2.1 + w.2.2.2.2
  if total ≠ 1 then
    let factor := 1 / total
    (w.1 * factor, w.2.1 * factor, w.2.2.1 * factor,
     w.2.2.2.1 * factor, w.2.2.2.2 * factor)
  else w

/-- scorer.py:342-351: the weighted sum of the five component scores,
clamped into [0, 1]. -/
def final_score_calc (config : PyConfig)
    (sender_score topic_score temporal_score
     message_state_score recipient_score : ℚ) : ℚ :=
  let w := renorm_weights (score_weights config)
  let final :=
    w.1 * sender_score + w.2.1 * topic_score + w.2.2.1 * temporal_score +
    w.2.2.2.1 * message_state_score + w.2.2.2.2 * recipient_score
  max 0 (min 1 final)

/-- The characters `'<>:"/\\|?*'` replaced by `_` in suggested folder names
(scorer.py:487/491). -/
def sanitizeChar (c : Char) : Char :=
  if c = '<' || c = '>' || c = ':' || c = '"' || c = '/' || c = '\\' ||
     c = '|' || c = '?' || c = '*' then '_' else c

/-- Python `re.sub(r'[<>:"/\\|?*]', '_', s)`. -/
def sanitizeFolder (s : String) : String := ⟨s.data.map sanitizeChar⟩

/-- Python `s[:50]`. -/
def take50 (s : String) : String := ⟨s.data.take 50⟩

/-- Python `s.capitalize()`: first character uppercased, the rest
lowercased. -/
def pyCapitalize (s : String) : String :=
  match s.data with
  | [] => ""
  | c :: rest => ⟨upperChar c :: rest.map lowerChar⟩

/-- The fields of the `score_data` returned by `score_email` that
`recommend_action` reads (scorer.py:414-425). -/
structure ScoreMeta where
  final_score : ℚ
  category : String
  action_items : List String
  topics : List String
  flag_due_days : Option Int
  importance : Int

/-- The result record of `recommend_action` (scorer.py:518-525);
`score_data` itself is carried separately. -/
structure Recommendation where
  folder : String
  flag : Bool
  create_task : Bool
  auto_archive : Bool
  score : ℚ

/-- The decision logic of `recommend_action` (scorer.py:427-525) as a
function of the score data.  `flag_due_days` is `days_until_due` when
`flag_due_by` is a valid datetime and `none` otherwise (including the
caught-exception path); `llm_suggestion` is the outcome of
`llm.generate_folder_name` when it is called (`Except.error` for a raised
exception, `some s` for a returned string, `none` for a falsy result). -/
def recommend_action_core (config : PyConfig) (llm_available : Bool)
    (llm_suggestion : Except Unit (Option String)) (sd : ScoreMeta) :
    Recommendation :=
  -- scorer.py:433-447: due-soon flags first
  let p1 : String × Bool × Bool × Bool :=
    match sd.flag_due_days with
    | some d => if d ≤ 0 then ("Due Today", true, true, true)
                else ("General", false, false, false)
    | none => ("General", false, false, false)
  let folder1 := p1.1
  let flag1 := p1.2.1
  let create_task1 := p1.2.2.1
  let due_today := p1.2.2.2
  -- scorer.py:449-455: high importance override
  let p2 : String × Bool :=
    if due_today = false ∧ sd.importance = 2 then
      ((if sd.final_score ≥ cfg_num config "high_priority_threshold" 0.7
        then "High Priority" else "Important"), true)
    else (folder1, flag1)
  let folder2 := p2.1
  let flag2 := p2.2
  -- scorer.py:457-466: priority folders
  let p3 : String × Bool × Bool :=
    if due_today = false ∧
       folder2 ∉ ["High Priority", "Important", "Due Today"] then
      if sd.final_score ≥ cfg_num config "high_priority_threshold" 0.8 then
        ("High Priority", true, true)
      else if sd.final_score ≥
          cfg_num config "medium_priority_threshold" 0.5 then
        ("Medium Priority", true, create_task1)
      else (folder2, flag2, create_task1)
    else (folder2, flag2, create_task1)
  let folder3 := p3.1
  let flag3 := p3.2.1
  let create_task3 := p3.2.2
  -- scorer.py:468-502: topic/category folders for lower priority
  let p4 : String × Bool :=
    if folder3 = "General" then
      if sd.category ∈ ["promotional", "newsletter"] then
        let f := pyCapitalize sd.category
        if sd.final_score < 0.3 then ("Archive/" ++ f, true) else (f, false)
      else if sd.category ∈ ["personal", "professional"] ∧
          cfg_bool config "use_llm_for_content" true = true ∧
          llm_available = true then
        let fallback : String :=
          match sd.topics with
          | t :: _ =>
            pyCapitalize sd.category ++ "/" ++
              take50 (sanitizeFolder (pyCapitalize t))
          | [] => pyCapitalize sd.category
        match llm_suggestion with
        | Except.error _ => (pyCapitalize sd.category, false)
        | Except.ok osug =>
          match osug with
          | some s =>
            if s ≠ "" ∧ s ≠ "Miscellaneous" then
              (pyCapitalize sd.category ++ "/" ++ take50 (sanitizeFolder s),
               false)
            else (fallback, false)
          | none => (fallback, false)
      else (pyCapitalize sd.category, false)
    else (folder3, false)
  let folder4 := p4.1
  let auto_archive4 := p4.2
  -- scorer.py:504-516: action items force a task and can relocate
  let p5 : String × Bool × Bool :=
    if sd.action_items ≠ [] then
      if folder4 ∉ ["High Priority", "Medium Priority", "Due Today",
          "Important"] then
        if auto_archive4 = true then ("Action Required", true, false)
        else if folder4 ∈ ["General", "Newsletter", "Promotional",
            "Transactional"] then
          ("Action Required", true, auto_archive4)
        else (folder4, true, auto_archive4)
      else (folder4, true, auto_archive4)
    else (folder4, create_task3, auto_archive4)
  { folder := p5.1, flag := flag3, create_task := p5.2.1,
    auto_archive := p5.2.2, score := sd.final_score }

/-- The data `score_email`'s guarded block derives from one message
before assembling `score_data`: the five component scores plus the
metadata `recommend_action` consumes. -/
structure EmailExtract where
  sender_score : ℚ
  topic_score : ℚ
  temporal_score : ℚ
  message_state_score : ℚ
  recipient_score : ℚ
  category : String
  action_items : List String
  topics : List String
  flag_due_days : Option Int
  importance : Int

/-- The function `score_email` (scorer.py:17-390): the whole body is one `try` block;
any raised exception (modelled by `Except.error`) is caught at
scorer.py:385-390 and turned into `None`, never into a default score. -/
def score_email_t (config : PyConfig)
    (extraction : Except Unit EmailExtract) : Option ScoreMeta :=
  match extraction with
  | Except.error _ => none
  | Except.ok e =>
    some { final_score := final_score_calc config e.sender_score
             e.topic_score e.temporal_score e.message_state_score
             e.recipient_score,
           category := e.category, action_items := e.action_items,
           topics := e.topics, flag_due_days := e.flag_due_days,
           importance := e.importance }

/-- The function `recommend_action` (scorer.py:408-412): score the email first and
return `None` when scoring returned no result. -/
def recommend_action_t (config : PyConfig) (llm_available : Bool)
    (llm_suggestion : Except Unit (Option String))
    (extraction : Except Unit EmailExtract) : Option Recommendation :=
  match score_email_t config extraction with
  | none => none
  | some sd => some (recommend_action_core config llm_available
      llm_suggestion sd)

/-- The per-item counters of `organize_inbox` (organizer.py:60-64) that
the error contract concerns. -/
structure OrgStats where
  processed : Nat
  errors : Nat

/-- One iteration of the `organize_inbox` loop at the recommendation step
(organizer.py:107-115): a missing recommendation increments `errors` and
(via `continue`) moves on; otherwise the item counts as processed. -/
def organize_step (stats : OrgStats) (rec : Option Recommendation) :
    OrgStats :=
  match rec with
  | none => { stats with errors := stats.errors + 1 }
  | some _ => { stats with processed := stats.processed + 1 }

/-- The `organize_inbox` batch loop over the recommendation outcomes of a
list of messages. -/
def organize_inbox (config : PyConfig) (llm_available : Bool)
    (llm_suggestion : Except Unit (Option String))
    (items : List (Except Unit EmailExtract)) : OrgStats :=
  items.foldl (fun st it =>
    organize_step st (recommend_action_t config llm_available
      llm_suggestion it)) ⟨0, 0⟩

/-- One entry of `response_data[contact]` as built by `analyze_sent_items`
(analyzer.py:669-674) and read defensively by
`_calculate_contact_importance`: latency in hours, reply body length, and
the reply's sent date (modelled as rational days; `none` where the source
would hold a missing/falsy value). The unused `subject` field is
omitted. -/
structure ResponseRec where
  response_time : Option ℚ
  response_length : ℚ
  sent_date : Option ℚ
deriving DecidableEq

/-- Numpy `np.mean` over rationals (0 on the empty list, which the source never
reaches on the guarded paths). -/
def mean (l : List ℚ) : ℚ := l.sum / (l.length : ℚ)

/-- Python `max(l)` with an explicit default for the empty list (on which
the source would raise `ValueError`). -/
def listMax (l : List ℚ) (d : ℚ) : ℚ :=
  match l with
  | [] => d
  | h :: t => t.foldl max h

/-- Python `min(l)` with an explicit default for the empty list. -/
def listMin (l : List ℚ) (d : ℚ) : ℚ :=
  match l with
  | [] => d
  | h :: t => t.foldl min h

/-- analyzer.py:770: the responses with a present, non-negative
response time. -/
def valid_responses (l : List ResponseRec) : List ResponseRec :=
  l.filter (fun r =>
    match r.response_time with
    | some t => decide (0 ≤ t)
    | none => false)

/-- analyzer.py:752-757: the normalized contact plus every display name
the alias map sends to it. -/
def possible_identities (c : String) (cm : ContactMap) : List String :=
  c :: (cm.filter (fun p => p.2 = c)).map (fun p => p.1)

/-- analyzer.py:763-767: all responses of a contact merged across its
known aliases. -/
def all_responses_of (c : String) (cm : ContactMap)
    (response_data : List (String × List ResponseRec)) : List ResponseRec :=
  (possible_identities c cm).flatMap
    (fun i => (lookupA response_data i).getD [])

/-- analyzer.py:759-788: the reply component of the raw score together
with the reply count (both stay 0 when there are too few responses or no
valid ones). On the empty-dates edge (every valid reply lacking a sent
date) the source raises; the model uses 0 as the min/max default
there. -/
def reply_component_and_count (config : PyConfig)
    (all_responses : List ResponseRec) : ℚ × Nat :=
  let min_emails_reply := cfg_num config "min_emails_for_pattern" 1
  if (all_responses.length : ℚ) ≥ min_emails_reply then
    let valid := valid_responses all_responses
    if valid = [] then (0, 0)
    else
      let reply_count := valid.length
      let avg_response_time :=
        mean (valid.map (fun r => r.response_time.getD 0))
      let avg_response_length := mean (valid.map (fun r => r.response_length))
      let response_dates := valid.filterMap (fun r => r.sent_date)
      let response_time_score := 1 / (1 + max 0 avg_response_time / 24)
      let min_date := listMin response_dates 0
      let max_date := listMax response_dates 0
      let date_range_days : ℤ := max 1 (Int.floor (max_date - min_date))
      let response_freq := (reply_count : ℚ) / (date_range_days : ℚ)
      ((cfg_num config "reply_time_weight" 0.4) * response_time_score +
       (cfg_num config "reply_rate_weight" 0.4) * min 1 (response_freq * 10) +
       (cfg_num config "reply_length_weight" 0.2) *
         min 1 (max 0 avg_response_length / 500),
       reply_count)
  else (0, 0)

/-- analyzer.py:746-824: the raw importance score of one normalized
contact and its total interaction count.  Initiation and read-kept inputs
are the per-identity `count` fields (their `dates` lists feed only the
unmodelled `last_interaction` timestamp). -/
def raw_score_of (config : PyConfig) (cm : ContactMap)
    (response_data : List (String × List ResponseRec))
    (sender_initiations : List (String × Nat))
    (read_kept_stats : List (String × Nat)) (c : String) : ℚ × Nat :=
  let ids := possible_identities c cm
  let rcc := reply_component_and_count config (all_responses_of c cm
    response_data)
  let initiation_count := (ids.map
    (fun i => (lookupA sender_initiations i).getD 0)).sum
  let read_kept_count := (ids.map
    (fun i => (lookupA read_kept_stats i).getD 0)).sum
  let raw := rcc.1 * cfg_num config "reply_pattern_score_factor" 1 +
    (initiation_count : ℚ) * cfg_num config "initiation_score_factor" 0.5 +
    (read_kept_count : ℚ) * cfg_num config "read_kept_score_factor" 0.3
  (raw, rcc.2 + initiation_count + read_kept_count)

/-- First-occurrence deduplication: the deterministic rendering of
iterating a Python `set` built from a list. -/
def dedupKeep (l : List String) : List String :=
  l.foldl (fun acc x => if acc.contains x then acc else acc ++ [x]) []

/-- analyzer.py:737-747: the union of the contacts known to any of the
three signals, normalized and deduplicated. -/
def normalized_contacts_of (cm : ContactMap)
    (response_data : List (String × List ResponseRec))
    (sender_initiations : List (String × Nat))
    (read_kept_stats : List (String × Nat)) : List String :=
  dedupKeep (((dedupKeep (response_data.map (fun p => p.1) ++
    sender_initiations.map (fun p => p.1) ++
    read_kept_stats.map (fun p => p.1)))).map (normalize_contact cm))

/-- analyzer.py:746-841: the retained contacts with their raw scores; a
contact is kept only with a positive total interaction count
(analyzer.py:827). -/
def raw_entries (config : PyConfig) (cm : ContactMap)
    (response_data : List (String × List ResponseRec))
    (sender_initiations : List (String × Nat))
    (read_kept_stats : List (String × Nat)) : List (String × ℚ) :=
  (normalized_contacts_of cm response_data sender_initiations
    read_kept_stats).filterMap (fun c =>
      let rs := raw_score_of config cm response_data sender_initiations
        read_kept_stats c
      if rs.2 > 0 then some (c, rs.1) else none)

/-- analyzer.py:843-859: min-max normalization over the retained raw
scores.  Each output triple carries (contact, raw_score,
normalized_score); the normalized score starts from the 0.5 default set
at record creation (analyzer.py:835). -/
def normalize_scores (entries : List (String × ℚ)) :
    List (String × ℚ × ℚ) :=
  match entries with
  | [] => []
  | _ :: _ =>
    let raws := entries.map (fun p => p.2)
    let max_raw := listMax raws 0
    let min_raw := listMin raws 0
    let raw_range := max_raw - min_raw
    if raw_range > 0 then
      entries.map (fun p =>
        (p.1, p.2, max 0 (min 1 ((p.2 - min_raw) / raw_range))))
    else if entries.length = 1 then
      entries.map (fun p => (p.1, p.2, 0.6))
    else
      entries.map (fun p => (p.1, p.2, 0.5))

/-- The rebuild `_calculate_contact_importance` end to end: raw scores of the
retained contacts followed by normalization. -/
def calculate_contact_importance (config : PyConfig) (cm : ContactMap)
    (response_data : List (String × List ResponseRec))
    (sender_initiations : List (String × Nat))
    (read_kept_stats : List (String × Nat)) : List (String × ℚ × ℚ) :=
  normalize_scores (raw_entries config cm response_data sender_initiations
    read_kept_stats)

/-- The reply component exactly as the specification words it:
`0.4·(1/(1+avg_latency_h/24)) + 0.4·min(1, (reply_count/date_span_days)·10)
+ 0.2·min(1, avg_len/500)` with
`date_span_days = max(1, days between earliest/latest reply)`, all taken
over the valid replies. -/
def spec_reply_component (valid : List ResponseRec) : ℚ :=
  let avg_latency_h := mean (valid.map (fun r => r.response_time.getD 0))
  let reply_count := (valid.length : ℚ)
  let dates := valid.filterMap (fun r => r.sent_date)
  let date_span_days : ℚ :=
    ((max 1 (Int.floor (listMax dates 0 - listMin dates 0)) : ℤ) : ℚ)
  let avg_len := mean (valid.map (fun r => r.response_length))
  0.4 * (1 / (1 + avg_latency_h / 24)) +
  0.4 * min 1 (reply_count / date_span_days * 10) +
  0.2 * min 1 (avg_len / 500)

/-- The invariant every alias-map value carries as the building code
stores it: a lowercase string containing `@`. -/
def goodAddr (e : String) : Prop := hasAt e = true ∧ sLower e = e

/-- Every address list of the `name_to_emails` multimap holds only good
addresses. -/
def MMGood (m : List (String × List String)) : Prop :=
  ∀ p ∈ m, ∀ e ∈ p.2, goodAddr e

/-- Every value of a contact map is a good address. -/
def CMGood (m : ContactMap) : Prop := ∀ p ∈ m, goodAddr p.2

/-- The direct-pair update a later scan applies to the alias map
(analyzer.py:1031-1042): each captured, already lowercased
`(sender_name, sender_email)` pair with a valid address is written
unconditionally (`self.contact_map[name] = email`), overwriting any
previous entry. -/
def inbox_update_contact_map (m : ContactMap)
    (pairs : List (String × String)) : ContactMap :=
  pairs.foldl (fun m p =>
    if p.1 ≠ "" ∧ p.2 ≠ "" ∧ hasAt p.2 then mapInsert m p.1 p.2 else m) m

/-- The address of the last valid direct pair carrying a given name. -/
def lastValidPair (name : String) : List (String × String) → Option String
  | [] => none
  | (dn, e) :: rest =>
    match lastValidPair name rest with
    | some e' => some e'
    | none =>
      if (dn ≠ "" ∧ e ≠ "" ∧ hasAt e) ∧ dn = name then some e else none

theorem lookupA_mapInsert {α : Type} (m : List (String × α)) (k k' : String)
    (v : α) :
    lookupA (mapInsert m k v) k' = if k = k' then some v else lookupA m k' := by
  induction m with
  | nil => simp [mapInsert, lookupA]
  | cons hd tl ih =>
    obtain ⟨k0, v0⟩ := hd
    by_cases h0 : k0 = k
    · subst h0
      simp only [mapInsert, if_pos rfl, lookupA]
      by_cases hk : k0 = k' <;> simp [hk, lookupA]
    · simp only [mapInsert, if_neg h0, lookupA]
      by_cases hk : k0 = k'
      · subst hk
        have : ¬ (k = k0) := fun h => h0 h.symm
        simp [this, lookupA]
      · simp [hk, ih]

theorem lookupA_mem {α : Type} {m : List (String × α)} {k : String} {v : α}
    (h : lookupA m k = some v) : (k, v) ∈ m := by
  induction m with
  | nil => simp [lookupA] at h
  | cons hd tl ih =>
    obtain ⟨k0, v0⟩ := hd
    by_cases h0 : k0 = k
    · subst h0
      rw [lookupA, if_pos rfl] at h
      injection h with h1
      subst h1
      exact List.mem_cons_self _ _
    · rw [lookupA, if_neg h0] at h
      exact List.mem_cons_of_mem _ (ih h)

/-- Step 4 never overwrites an existing entry, and a name still missing
after Step 3 receives the address of its first valid direct pair. -/
theorem lookupA_step4 (ps : List (String × String)) (m : ContactMap)
    (name : String) :
    lookupA (step4 m ps) name =
      match lookupA m name with
      | some v => some v
      | none => firstValidPair name ps := by
  induction ps generalizing m with
  | nil =>
    simp only [step4, List.foldl_nil, firstValidPair]
    cases lookupA m name <;> rfl
  | cons p ps ih =>
    obtain ⟨dn, e⟩ := p
    simp only [step4, List.foldl_cons] at *
    by_cases hval : dn ≠ "" ∧ e ≠ "" ∧ hasAt e
    · simp only [if_pos hval]
      cases hdn : lookupA m dn with
      | none =>
        rw [ih]
        rw [lookupA_mapInsert]
        by_cases hne : dn = name
        · subst hne
          simp only [if_pos rfl, hdn, firstValidPair, hval, and_self,
            if_pos, if_true]
          simp [hval]
        · simp only [if_neg hne, firstValidPair]
          cases hnm : lookupA m name with
          | none => simp [hval, hne]
          | some v => simp
      | some v0 =>
        rw [ih]
        cases hnm : lookupA m name with
        | none =>
          have hne : ¬ (dn = name) := by
            intro h; rw [h, hnm] at hdn; exact Option.noConfusion hdn
          simp [firstValidPair, hne]
        | some v => simp
    · simp only [if_neg hval]
      rw [ih]
      cases hnm : lookupA m name with
      | none => simp [firstValidPair, hval]
      | some v => simp

theorem lowerChar_fix : ∀ p ∈ upperLower, lowerChar p.2 = p.2 := by decide

theorem lowerChar_ne_at : ∀ p ∈ upperLower, p.2 ≠ '@' := by decide

theorem lowerChar_idem (c : Char) : lowerChar (lowerChar c) = lowerChar c := by
  cases h : upperLower.find? (fun p => p.1 = c) with
  | none =>
    have hc : lowerChar c = c := by simp [lowerChar, h]
    rw [hc]
    exact hc
  | some p =>
    have hm : p ∈ upperLower := List.mem_of_find?_eq_some h
    have hc : lowerChar c = p.2 := by simp [lowerChar, h]
    rw [hc]
    exact lowerChar_fix p hm

theorem lowerChar_eq_at {c : Char} (h : lowerChar c = '@') : c = '@' := by
  cases hf : upperLower.find? (fun p => p.1 = c) with
  | none =>
    have hc : lowerChar c = c := by simp [lowerChar, hf]
    rw [hc] at h
    exact h
  | some p =>
    have hm : p ∈ upperLower := List.mem_of_find?_eq_some hf
    have hc : lowerChar c = p.2 := by simp [lowerChar, hf]
    rw [hc] at h
    exact absurd h (lowerChar_ne_at p hm)

theorem sLower_idem (s : String) : sLower (sLower s) = sLower s := by
  simp only [sLower, List.map_map]
  congr 1
  exact List.map_congr_left (fun c _ => lowerChar_idem c)

theorem hasAt_sLower (s : String) : hasAt (sLower s) = hasAt s := by
  have hiff : '@' ∈ s.data.map lowerChar ↔ '@' ∈ s.data := by
    constructor
    · intro h
      obtain ⟨c, hc, he⟩ := List.mem_map.mp h
      rwa [lowerChar_eq_at he] at hc
    · intro h
      exact List.mem_map.mpr ⟨'@', h, rfl⟩
  simp only [hasAt, sLower]
  by_cases h : '@' ∈ s.data
  · simp [h, hiff.mpr h]
  · have h2 : '@' ∉ s.data.map lowerChar := fun hx => h (hiff.mp hx)
    simp [h, h2]

theorem string_empty_iff (s : String) : s = "" ↔ s.data = [] := by
  constructor
  · intro h; rw [h]
  · intro h; rw [String.ext_iff, h]

theorem sLower_ne_empty {s : String} (h : s ≠ "") : sLower s ≠ "" := by
  intro he
  apply h
  rw [string_empty_iff] at he ⊢
  simp only [sLower] at he
  exact List.map_eq_nil_iff.mp he

theorem hasAt_ne_empty {s : String} (h : hasAt s = true) : s ≠ "" := by
  intro he
  rw [he] at h
  simp [hasAt] at h

/-- C2 counterexample: the display name `john doe` co-occurs with the valid
address `x@y.com` as a Stage-1 direct pair, yet the alias map built by
`_initialize_contact_map` maps `john doe` to the fuzzy candidate
`john.doe@other.com` (fuzzy score 13) instead of the direct-pair address
(fuzzy score 0): the fuzzy-resolution step runs before the direct-pair step
and the direct-pair step does not overwrite it. -/
theorem c2_counterexample :
    (raw_sender_pairs c2records).contains ("john doe", "x@y.com") = true ∧
    lookupA (initialize_contact_map c2records) "john doe" =
      some "john.doe@other.com" ∧
    ("john.doe@other.com" : String) ≠ "x@y.com" := by
  refine ⟨by decide, by decide, by decide⟩

/-- C2 (amended): in one build of the alias map, a Stage-1 direct pair is
installed only as a fallback: the final mapping of every name is its
fuzzy resolution from Step 3 when one was accepted (score ≥ 1), and
otherwise the address of the first valid direct pair carrying that name;
a direct pair never overwrites an existing entry. -/
theorem c2_direct_pair_fallback (records : List TrackRecord) (name : String) :
    lookupA (initialize_contact_map records) name =
      match lookupA (step3 (name_to_emails records)) name with
      | some v => some v
      | none => firstValidPair name (raw_sender_pairs records) := by
  exact lookupA_step4 (raw_sender_pairs records)
    (step3 (name_to_emails records)) name

/-- C7: `_normalize_contact` is idempotent on every non-empty identifier,
given the invariant the map-building code maintains for alias-map values:
each stored address contains `@` and is already lowercase. -/
theorem c7_normalize_idempotent (cm : ContactMap) (x : String)
    (hm : ∀ p ∈ cm, hasAt p.2 = true ∧ sLower p.2 = p.2) (hx : x ≠ "") :
    normalize_contact cm (normalize_contact cm x) = normalize_contact cm x := by
  by_cases ha : hasAt (sLower x) = true
  · have hy : normalize_contact cm x = sLower x := by
      rw [normalize_contact, if_neg hx]
      simp [ha]
    rw [hy]
    rw [normalize_contact, if_neg (sLower_ne_empty hx)]
    simp [sLower_idem, ha]
  · cases hlk : lookupA cm (sLower x) with
    | none =>
      have hy : normalize_contact cm x = sLower x := by
        rw [normalize_contact, if_neg hx]
        simp [ha, hlk]
      rw [hy]
      rw [normalize_contact, if_neg (sLower_ne_empty hx)]
      simp [sLower_idem, ha, hlk]
    | some v =>
      have hy : normalize_contact cm x = v := by
        rw [normalize_contact, if_neg hx]
        simp [ha, hlk]
      obtain ⟨hv1, hv2⟩ := hm (sLower x, v) (lookupA_mem hlk)
      rw [hy]
      rw [normalize_contact, if_neg (hasAt_ne_empty hv1)]
      simp [hv2, hv1]

/-- C7 witness: a concrete alias map and identifier. -/
theorem c7_witness :
    normalize_contact [("john doe", "jd@x.com")]
        (normalize_contact [("john doe", "jd@x.com")] "John Doe") =
      normalize_contact [("john doe", "jd@x.com")] "John Doe" :=
  c7_normalize_idempotent [("john doe", "jd@x.com")] "John Doe"
    (by decide) (by decide)

theorem run_scans_unread (k : Nat) (n : Nat) :
    run_scans (some k) (List.replicate n false) = some (k + n) := by
  induction n generalizing k with
  | zero => simp [run_scans]
  | succ n ih =>
    rw [List.replicate_succ]
    simp only [run_scans, List.foldl_cons] at *
    rw [show new_check_count (some k) false = k + 1 from rfl]
    rw [ih (k + 1)]
    congr 1
    omega

/-- C3: starting from an unseen message, N consecutive unread scans yield
a stored check_count of N; one read scan then resets it to 0
unconditionally; the following unread scan yields 1, not N+1. -/
theorem c3_check_count_state_machine (N : Nat) (hN : 1 ≤ N) :
    run_scans none (List.replicate N false) = some N ∧
    run_scans none (List.replicate N false ++ [true]) = some 0 ∧
    run_scans none (List.replicate N false ++ [true, false]) = some 1 := by
  obtain ⟨M, rfl⟩ : ∃ M, N = M + 1 := ⟨N - 1, by omega⟩
  have h1 : run_scans none (List.replicate (M + 1) false) = some (M + 1) := by
    rw [List.replicate_succ]
    simp only [run_scans, List.foldl_cons]
    rw [show new_check_count none false = 1 from rfl]
    rw [show (1 : Nat) = 0 + 1 from rfl]
    have := run_scans_unread 1 M
    simp only [run_scans] at this
    rw [this]
    congr 1
    omega
  refine ⟨h1, ?_, ?_⟩
  · simp only [run_scans, List.foldl_append]
    simp only [run_scans] at h1
    rw [h1]
    rfl
  · simp only [run_scans, List.foldl_append]
    simp only [run_scans] at h1
    rw [h1]
    rfl

/-- C3 witness at N = 3. -/
theorem c3_witness :
    run_scans none (List.replicate 3 false) = some 3 ∧
    run_scans none (List.replicate 3 false ++ [true]) = some 0 ∧
    run_scans none (List.replicate 3 false ++ [true, false]) = some 1 :=
  c3_check_count_state_machine 3 (by decide)

/-- C4: with non-negative component weights of positive sum, the weights
are re-normalized to sum exactly to 1 and the final score always lands in
[0, 1], whatever the (possibly out-of-range) component scores are. -/
theorem c4_final_score_in_range (config : PyConfig)
    (s t te ms r : ℚ)
    (hw : 0 ≤ (score_weights config).1 ∧ 0 ≤ (score_weights config).2.1 ∧
          0 ≤ (score_weights config).2.2.1 ∧
          0 ≤ (score_weights config).2.2.2.1 ∧
          0 ≤ (score_weights config).2.2.2.2)
    (hpos : 0 < (score_weights config).1 + (score_weights config).2.1 +
      (score_weights config).2.2.1 + (score_weights config).2.2.2.1 +
      (score_weights config).2.2.2.2) :
    (let w := renorm_weights (score_weights config)
     w.1 + w.2.1 + w.2.2.1 + w.2.2.2.1 + w.2.2.2.2 = 1) ∧
    0 ≤ final_score_calc config s t te ms r ∧
    final_score_calc config s t te ms r ≤ 1 := by
  refine ⟨?_, ?_, ?_⟩
  · set w := score_weights config with hwdef
    obtain ⟨w1, w2, w3, w4, w5⟩ := w
    simp only [renorm_weights]
    by_cases h1 : w1 + w2 + w3 + w4 + w5 ≠ 1
    · simp only [if_pos h1]
      have hne : w1 + w2 + w3 + w4 + w5 ≠ 0 := ne_of_gt hpos
      field_simp
    · simp only [if_neg h1]
      push_neg at h1
      exact h1
  · exact le_max_left 0 _
  · exact max_le (by norm_num) (min_le_left 1 _)

/-- C4 witness: default weights (empty configuration) and a
message-state component of 1.5, outside [0, 1]. -/
theorem c4_witness :
    (let w := renorm_weights (score_weights ⟨[], []⟩)
     w.1 + w.2.1 + w.2.2.1 + w.2.2.2.1 + w.2.2.2.2 = 1) ∧
    0 ≤ final_score_calc ⟨[], []⟩ 0.5 0.5 0.5 1.5 0.5 ∧
    final_score_calc ⟨[], []⟩ 0.5 0.5 0.5 1.5 0.5 ≤ 1 :=
  c4_final_score_in_range ⟨[], []⟩ 0.5 0.5 0.5 1.5 0.5
    (by refine ⟨?_, ?_, ?_, ?_, ?_⟩ <;> norm_num [score_weights, cfg_num, lookupA])
    (by norm_num [score_weights, cfg_num, lookupA])

/-- C1 counterexample: with `high_priority_threshold` missing from the
configuration, a high-importance message with final score 0.75 is filed
under "High Priority" although 0.75 is below the documented default 0.8 —
the high-importance branch (scorer.py:451) falls back to 0.7, not to the
0.8 used by the general priority rule (scorer.py:459). -/
theorem c1_counterexample :
    (recommend_action_core ⟨[], []⟩ false (Except.ok none)
      ⟨0.75, "general", [], [], none, 2⟩).folder = "High Priority" ∧
    (recommend_action_core ⟨[], []⟩ false (Except.ok none)
      ⟨0.75, "general", [], [], none, 2⟩).folder ≠ "Important" ∧
    ¬ ((0.75 : ℚ) ≥ 0.8) := by
  refine ⟨?_, ?_, by norm_num⟩ <;>
    · norm_num [recommend_action_core, cfg_num, lookupA]
      decide

/-- C1 (amended): for a high-importance message (importance = 2) that is
not routed by the due-today rule, the folder is "High Priority" when
final_score reaches the high threshold and "Important" otherwise, with
flag = true in both cases; the threshold is the configured
`high_priority_threshold` when the key is present, but falls back to 0.7
— not the documented 0.8 of the general priority rule — when the key is
missing. -/
theorem c1_high_importance_threshold (config : PyConfig)
    (llm_available : Bool) (llm_suggestion : Except Unit (Option String))
    (sd : ScoreMeta) (himp : sd.importance = 2)
    (hdue : ∀ d, sd.flag_due_days = some d → 0 < d) :
    (recommend_action_core config llm_available llm_suggestion sd).flag =
      true ∧
    (recommend_action_core config llm_available llm_suggestion sd).folder =
      (if sd.final_score ≥ cfg_num config "high_priority_threshold" 0.7
       then "High Priority" else "Important") := by
  by_cases hth :
      sd.final_score ≥ cfg_num config "high_priority_threshold" 0.7 <;>
  by_cases hai : sd.action_items = [] <;>
  · cases hfd : sd.flag_due_days with
    | none => simp [recommend_action_core, hfd, himp, hth, hai]
    | some d =>
      have hd : ¬ (d ≤ 0) := by have := hdue d hfd; omega
      simp [recommend_action_core, hfd, himp, hth, hai, hd]

/-- C1 amended-claim witness: default (empty) configuration, importance 2,
final score 0.9 ≥ 0.7 fallback. -/
theorem c1_witness :
    (recommend_action_core ⟨[], []⟩ false (Except.ok none)
      ⟨0.9, "general", [], [], none, 2⟩).flag = true ∧
    (recommend_action_core ⟨[], []⟩ false (Except.ok none)
      ⟨0.9, "general", [], [], none, 2⟩).folder =
      (if (0.9 : ℚ) ≥ cfg_num ⟨[], []⟩ "high_priority_threshold" 0.7
       then "High Priority" else "Important") :=
  c1_high_importance_threshold ⟨[], []⟩ false (Except.ok none)
    ⟨0.9, "general", [], [], none, 2⟩ rfl
    (fun d h => by simp at h)

/-- C5: a promotional message that is not due today, not high-importance,
and whose final score is below both priority thresholds and below 0.3 is
auto-archived to "Archive/Promotional"; when action items are present, the
recommendation instead becomes "Action Required" with auto-archive
cancelled and a task created. -/
theorem c5_promotional_routing (config : PyConfig) (llm_available : Bool)
    (llm_suggestion : Except Unit (Option String)) (sd : ScoreMeta)
    (hcat : sd.category = "promotional") (himp : sd.importance ≠ 2)
    (hdue : ∀ d, sd.flag_due_days = some d → 0 < d)
    (hhigh : sd.final_score <
      cfg_num config "high_priority_threshold" 0.8)
    (hmed : sd.final_score <
      cfg_num config "medium_priority_threshold" 0.5)
    (h03 : sd.final_score < 0.3) :
    (sd.action_items = [] →
      (recommend_action_core config llm_available llm_suggestion sd).folder =
        "Archive/Promotional" ∧
      (recommend_action_core config llm_available llm_suggestion
        sd).auto_archive = true) ∧
    (sd.action_items ≠ [] →
      (recommend_action_core config llm_available llm_suggestion sd).folder =
        "Action Required" ∧
      (recommend_action_core config llm_available llm_suggestion
        sd).auto_archive = false ∧
      (recommend_action_core config llm_available llm_suggestion
        sd).create_task = true) := by
  have hh : ¬ (sd.final_score ≥
      cfg_num config "high_priority_threshold" 0.8) := not_le.mpr hhigh
  have hm : ¬ (sd.final_score ≥
      cfg_num config "medium_priority_threshold" 0.5) := not_le.mpr hmed
  constructor <;> intro hai <;>
  · cases hfd : sd.flag_due_days with
    | none =>
      simp [recommend_action_core, hfd, himp, hcat, hai, hh, hm, h03,
        pyCapitalize] <;> decide
    | some d =>
      have hd : ¬ (d ≤ 0) := by have := hdue d hfd; omega
      simp [recommend_action_core, hfd, himp, hcat, hai, hh, hm, h03, hd,
        pyCapitalize] <;> decide

/-- C5 witness: final score 0.25, default thresholds, no action items. -/
theorem c5_witness :
    (recommend_action_core ⟨[], []⟩ false (Except.ok none)
      ⟨0.25, "promotional", [], [], none, 1⟩).folder =
      "Archive/Promotional" ∧
    (recommend_action_core ⟨[], []⟩ false (Except.ok none)
      ⟨0.25, "promotional", [], [], none, 1⟩).auto_archive = true :=
  (c5_promotional_routing ⟨[], []⟩ false (Except.ok none)
    ⟨0.25, "promotional", [], [], none, 1⟩ rfl (by decide)
    (fun d h => by simp at h)
    (by norm_num [cfg_num, lookupA]) (by norm_num [cfg_num, lookupA])
    (by norm_num)).1 rfl

theorem organize_inbox_counts (config : PyConfig) (llm_available : Bool)
    (llm_suggestion : Except Unit (Option String))
    (items : List (Except Unit EmailExtract)) (st : OrgStats) :
    (items.foldl (fun st it =>
      organize_step st (recommend_action_t config llm_available
        llm_suggestion it)) st).errors =
      st.errors + (items.filter (fun it => match it with
        | Except.error _ => true
        | Except.ok _ => false)).length ∧
    (items.foldl (fun st it =>
      organize_step st (recommend_action_t config llm_available
        llm_suggestion it)) st).processed =
      st.processed + (items.filter (fun it => match it with
        | Except.error _ => false
        | Except.ok _ => true)).length := by
  induction items generalizing st with
  | nil => simp
  | cons it rest ih =>
    cases it with
    | error e =>
      simp only [List.foldl_cons, List.filter_cons]
      have := ih { st with errors := st.errors + 1 }
      simp only [recommend_action_t, score_email_t, organize_step] at *
      refine ⟨?_, ?_⟩
      · rw [this.1]; simp; omega
      · rw [this.2]; simp
    | ok e =>
      simp only [List.foldl_cons, List.filter_cons]
      have := ih { st with processed := st.processed + 1 }
      simp only [recommend_action_t, score_email_t, organize_step] at *
      refine ⟨?_, ?_⟩
      · rw [this.1]; simp
      · rw [this.2]; simp; omega

theorem filter_length_split {α : Type} (p : α → Bool) (l : List α) :
    (l.filter p).length + (l.filter (fun x => !p x)).length = l.length := by
  induction l with
  | nil => simp
  | cons x t ih =>
    by_cases hx : p x = true <;> simp [List.filter_cons, hx] <;> omega

/-- C8: a failed per-message extraction makes `score_email` return no
result (`none`, not a default), `recommend_action` then returns `none` as
well, and the batch loop counts exactly the failing messages in its error
counter while processing every other message — it never aborts. -/
theorem c8_error_contract (config : PyConfig) (llm_available : Bool)
    (llm_suggestion : Except Unit (Option String))
    (items : List (Except Unit EmailExtract)) :
    (∀ e, score_email_t config (Except.error e) = none) ∧
    (∀ e, recommend_action_t config llm_available llm_suggestion
      (Except.error e) = none) ∧
    (organize_inbox config llm_available llm_suggestion items).errors =
      (items.filter (fun it => match it with
        | Except.error _ => true
        | Except.ok _ => false)).length ∧
    (organize_inbox config llm_available llm_suggestion items).processed +
      (organize_inbox config llm_available llm_suggestion items).errors =
      items.length := by
  have hc := organize_inbox_counts config llm_available llm_suggestion
    items ⟨0, 0⟩
  refine ⟨fun e => rfl, fun e => rfl, ?_, ?_⟩
  · rw [show organize_inbox config llm_available llm_suggestion items =
      items.foldl (fun st it => organize_step st
        (recommend_action_t config llm_available llm_suggestion it))
        ⟨0, 0⟩ from rfl]
    rw [hc.1]
    simp
  · rw [show organize_inbox config llm_available llm_suggestion items =
      items.foldl (fun st it => organize_step st
        (recommend_action_t config llm_available llm_suggestion it))
        ⟨0, 0⟩ from rfl]
    rw [hc.1, hc.2]
    simp only [Nat.zero_add]
    have hpred : (items.filter (fun it => match it with
        | Except.error _ => true
        | Except.ok _ => false)) =
        (items.filter (fun it => !(fun it => match it with
          | Except.error _ => false
          | Except.ok _ => true) it)) := by
      apply List.filter_congr
      intro it _
      cases it <;> rfl
    rw [hpred]
    exact filter_length_split _ items

theorem foldl_max_const {v : ℚ} {t : List ℚ} (h : ∀ x ∈ t, x = v) :
    t.foldl max v = v := by
  induction t with
  | nil => rfl
  | cons x xs ih =>
    rw [List.foldl_cons, h x (List.mem_cons_self x xs), max_self]
    exact ih (fun y hy => h y (List.mem_cons_of_mem x hy))

theorem foldl_min_const {v : ℚ} {t : List ℚ} (h : ∀ x ∈ t, x = v) :
    t.foldl min v = v := by
  induction t with
  | nil => rfl
  | cons x xs ih =>
    rw [List.foldl_cons, h x (List.mem_cons_self x xs), min_self]
    exact ih (fun y hy => h y (List.mem_cons_of_mem x hy))

theorem normalize_scores_bounds (entries : List (String × ℚ))
    (p : String × ℚ × ℚ) (hp : p ∈ normalize_scores entries) :
    0 ≤ p.2.2 ∧ p.2.2 ≤ 1 := by
  match entries with
  | [] => simp [normalize_scores] at hp
  | e :: es =>
    rw [normalize_scores] at hp
    by_cases hr : listMax ((e :: es).map (fun p => p.2)) 0 -
        listMin ((e :: es).map (fun p => p.2)) 0 > 0
    · simp only [if_pos hr] at hp
      obtain ⟨q, _, rfl⟩ := List.mem_map.mp hp
      constructor
      · exact le_max_left 0 _
      · exact max_le (by norm_num) (min_le_left 1 _)
    · simp only [if_neg hr] at hp
      by_cases hl : (e :: es).length = 1
      · simp only [if_pos hl] at hp
        obtain ⟨q, _, rfl⟩ := List.mem_map.mp hp
        norm_num
      · simp only [if_neg hl] at hp
        obtain ⟨q, _, rfl⟩ := List.mem_map.mp hp
        norm_num

theorem normalize_scores_single (c : String) (r : ℚ) :
    normalize_scores [(c, r)] = [(c, r, 0.6)] := by
  simp [normalize_scores, listMax, listMin]

/-- C6: after a rebuild of the sender importance model every retained
contact's normalized score lies in [0, 1], and when exactly one contact
qualifies (the raw-score range then being zero) its normalized score is
the fixed 0.6 default rather than the result of a division by zero. -/
theorem c6_normalized_scores (config : PyConfig) (cm : ContactMap)
    (response_data : List (String × List ResponseRec))
    (sender_initiations : List (String × Nat))
    (read_kept_stats : List (String × Nat)) :
    (∀ p ∈ calculate_contact_importance config cm response_data
        sender_initiations read_kept_stats,
      0 ≤ p.2.2 ∧ p.2.2 ≤ 1) ∧
    (∀ c r, raw_entries config cm response_data sender_initiations
        read_kept_stats = [(c, r)] →
      calculate_contact_importance config cm response_data
        sender_initiations read_kept_stats = [(c, r, 0.6)]) := by
  constructor
  · intro p hp
    exact normalize_scores_bounds _ p hp
  · intro c r hone
    rw [calculate_contact_importance, hone]
    exact normalize_scores_single c r

/-- C6 witness: a single contact with two initiations and no other signal
is retained with raw score 1 and normalized score 0.6. -/
theorem c6_witness :
    (0 ≤ (0.6 : ℚ) ∧ (0.6 : ℚ) ≤ 1) ∧
    calculate_contact_importance ⟨[], []⟩ [] [] [("a@b.com", 2)] [] =
      [("a@b.com", 1, 0.6)] := by
  have hc : normalized_contacts_of [] [] [("a@b.com", 2)] [] =
      ["a@b.com"] := by decide
  have hent : raw_entries ⟨[], []⟩ [] [] [("a@b.com", 2)] [] =
      [("a@b.com", (1 : ℚ))] := by
    rw [raw_entries, hc]
    norm_num [raw_score_of, possible_identities, all_responses_of,
      reply_component_and_count, lookupA, cfg_num, valid_responses, mean,
      List.filterMap_cons, List.filterMap_nil]
  have h2 := (c6_normalized_scores ⟨[], []⟩ [] [] [("a@b.com", 2)] []).2
    "a@b.com" 1 hent
  refine ⟨?_, h2⟩
  have hmem : ("a@b.com", (1 : ℚ), (0.6 : ℚ)) ∈
      calculate_contact_importance ⟨[], []⟩ [] [] [("a@b.com", 2)] [] := by
    rw [h2]; exact List.mem_singleton.mpr rfl
  exact (c6_normalized_scores ⟨[], []⟩ [] [] [("a@b.com", 2)] []).1
    ("a@b.com", (1 : ℚ), (0.6 : ℚ)) hmem

/-- C10: when two or more contacts are retained and all share one raw
score (zero min-max range), every retained contact keeps the 0.5
initialization default — neither min-max scaling nor the single-contact
0.6 default applies. -/
theorem c10_zero_range_multi (config : PyConfig) (cm : ContactMap)
    (response_data : List (String × List ResponseRec))
    (sender_initiations : List (String × Nat))
    (read_kept_stats : List (String × Nat))
    (h2 : 2 ≤ (raw_entries config cm response_data sender_initiations
      read_kept_stats).length)
    (hsame : ∀ p ∈ raw_entries config cm response_data sender_initiations
        read_kept_stats,
      ∀ q ∈ raw_entries config cm response_data sender_initiations
        read_kept_stats, p.2 = q.2) :
    ∀ p ∈ calculate_contact_importance config cm response_data
      sender_initiations read_kept_stats, p.2.2 = 0.5 := by
  intro p hp
  rw [calculate_contact_importance] at hp
  cases hE : raw_entries config cm response_data sender_initiations
      read_kept_stats with
  | nil =>
    rw [hE] at hp
    simp [normalize_scores] at hp
  | cons e es =>
    rw [hE] at hp hsame h2
    have hconst : ∀ x ∈ (e :: es).map (fun p => p.2), x = e.2 := by
      intro x hx
      obtain ⟨q, hq, rfl⟩ := List.mem_map.mp hx
      exact hsame q hq e (List.mem_cons_self e es)
    have hmax : listMax ((e :: es).map (fun p => p.2)) 0 = e.2 := by
      simp only [listMax, List.map_cons]
      exact foldl_max_const (fun x hx =>
        hconst x (List.mem_cons_of_mem _ hx))
    have hmin : listMin ((e :: es).map (fun p => p.2)) 0 = e.2 := by
      simp only [listMin, List.map_cons]
      exact foldl_min_const (fun x hx =>
        hconst x (List.mem_cons_of_mem _ hx))
    rw [normalize_scores] at hp
    rw [hmax, hmin] at hp
    have hr : ¬ (e.2 - e.2 > 0) := by norm_num
    simp only [if_neg hr] at hp
    have hlen : ¬ ((e :: es).length = 1) := by
      simp only [List.length_cons] at h2 ⊢
      omega
    simp only [if_neg hlen] at hp
    obtain ⟨q, _, rfl⟩ := List.mem_map.mp hp
    rfl

/-- C10 witness: two contacts with equal raw scores both keep 0.5. -/
theorem c10_witness :
    ("a@b.com", (1 : ℚ), (0.5 : ℚ)) ∈
      calculate_contact_importance ⟨[], []⟩ [] []
        [("a@b.com", 2), ("c@d.com", 2)] [] ∧
    (("a@b.com", (1 : ℚ), (0.5 : ℚ)) : String × ℚ × ℚ).2.2 = 0.5 := by
  have hc : normalized_contacts_of [] [] [("a@b.com", 2), ("c@d.com", 2)]
      [] = ["a@b.com", "c@d.com"] := by decide
  have hent : raw_entries ⟨[], []⟩ [] [] [("a@b.com", 2), ("c@d.com", 2)]
      [] = [("a@b.com", (1 : ℚ)), ("c@d.com", (1 : ℚ))] := by
    rw [raw_entries, hc]
    have hk1 : lookupA [("a@b.com", (2 : Nat)), ("c@d.com", 2)]
        "a@b.com" = some 2 := by decide
    have hk2 : lookupA [("a@b.com", (2 : Nat)), ("c@d.com", 2)]
        "c@d.com" = some 2 := by decide
    have hne : ("a@b.com" : String) ≠ "c@d.com" := by decide
    have hne2 : ("c@d.com" : String) ≠ "a@b.com" := by decide
    norm_num [raw_score_of, possible_identities, all_responses_of,
      reply_component_and_count, lookupA, cfg_num, valid_responses, mean,
      hk1, hk2, hne, hne2, List.filterMap_cons, List.filterMap_nil]
  have hall := c10_zero_range_multi ⟨[], []⟩ [] []
    [("a@b.com", 2), ("c@d.com", 2)] []
    (by rw [hent]; norm_num)
    (by rw [hent]; intro p hp q hq; fin_cases hp <;> fin_cases hq <;> rfl)
  have hres : calculate_contact_importance ⟨[], []⟩ [] []
      [("a@b.com", 2), ("c@d.com", 2)] [] =
      normalize_scores [("a@b.com", (1 : ℚ)), ("c@d.com", (1 : ℚ))] := by
    rw [calculate_contact_importance, hent]
  have hmem : ("a@b.com", (1 : ℚ), (0.5 : ℚ)) ∈
      calculate_contact_importance ⟨[], []⟩ [] []
        [("a@b.com", 2), ("c@d.com", 2)] [] := by
    rw [hres]
    norm_num [normalize_scores, listMax, listMin]
  exact ⟨hmem, rfl⟩

theorem mean_nonneg {l : List ℚ} (h : ∀ x ∈ l, 0 ≤ x) : 0 ≤ mean l :=
  div_nonneg (List.sum_nonneg h) (Nat.cast_nonneg _)

theorem valid_responses_rt_nonneg (l : List ResponseRec) :
    ∀ r ∈ valid_responses l, 0 ≤ r.response_time.getD 0 := by
  intro r hr
  rw [valid_responses, List.mem_filter] at hr
  obtain ⟨-, hp⟩ := hr
  cases hrt : r.response_time with
  | none => rw [hrt] at hp; simp at hp
  | some t =>
    rw [hrt] at hp
    simp only [Option.getD_some]
    simpa using hp

/-- C9: for a contact whose responses, merged across all of its known
aliases, number at least the configured minimum, the code's reply
component equals the spec's closed formula over the valid replies
(non-negative latency), under the default reply weights 0.4/0.4/0.2 (the
keys absent from the configuration) and non-negative reply lengths; the
reply count used is the number of valid replies. -/
theorem c9_reply_component_formula (config : PyConfig) (cm : ContactMap)
    (response_data : List (String × List ResponseRec)) (c : String)
    (hw1 : lookupA config.num "reply_time_weight" = none)
    (hw2 : lookupA config.num "reply_rate_weight" = none)
    (hw3 : lookupA config.num "reply_length_weight" = none)
    (hmin : cfg_num config "min_emails_for_pattern" 1 ≤
      ((all_responses_of c cm response_data).length : ℚ))
    (hv : valid_responses (all_responses_of c cm response_data) ≠ [])
    (hlen : ∀ r ∈ valid_responses (all_responses_of c cm response_data),
      0 ≤ r.response_length) :
    (reply_component_and_count config
      (all_responses_of c cm response_data)).1 =
      spec_reply_component
        (valid_responses (all_responses_of c cm response_data)) ∧
    (reply_component_and_count config
      (all_responses_of c cm response_data)).2 =
      (valid_responses (all_responses_of c cm response_data)).length := by
  have havg : 0 ≤ mean ((valid_responses
      (all_responses_of c cm response_data)).map
      (fun r => r.response_time.getD 0)) := by
    apply mean_nonneg
    intro x hx
    obtain ⟨r, hr, rfl⟩ := List.mem_map.mp hx
    exact valid_responses_rt_nonneg _ r hr
  have havglen : 0 ≤ mean ((valid_responses
      (all_responses_of c cm response_data)).map
      (fun r => r.response_length)) := by
    apply mean_nonneg
    intro x hx
    obtain ⟨r, hr, rfl⟩ := List.mem_map.mp hx
    exact hlen r hr
  simp only [reply_component_and_count]
  rw [if_pos hmin, if_neg hv]
  rw [spec_reply_component]
  simp only [cfg_num, hw1, hw2, hw3, Option.getD_none]
  rw [max_eq_right havg, max_eq_right havglen]
  exact ⟨rfl, trivial⟩

/-- C9 witness: one contact, two valid replies with latencies 12h and 36h,
lengths 100 and 300, dates two days apart, empty configuration. -/
theorem c9_witness :
    (reply_component_and_count ⟨[], []⟩ (all_responses_of "a@b.com" []
      [("a@b.com", [⟨some 12, 100, some 10⟩, ⟨some 36, 300, some 12⟩])])).1 =
      spec_reply_component (valid_responses (all_responses_of "a@b.com" []
        [("a@b.com",
          [⟨some 12, 100, some 10⟩, ⟨some 36, 300, some 12⟩])])) ∧
    (reply_component_and_count ⟨[], []⟩ (all_responses_of "a@b.com" []
      [("a@b.com",
        [⟨some 12, 100, some 10⟩, ⟨some 36, 300, some 12⟩])])).2 =
      (valid_responses (all_responses_of "a@b.com" []
        [("a@b.com",
          [⟨some 12, 100, some 10⟩, ⟨some 36, 300, some 12⟩])])).length :=
  c9_reply_component_formula ⟨[], []⟩ []
    [("a@b.com", [⟨some 12, 100, some 10⟩, ⟨some 36, 300, some 12⟩])]
    "a@b.com" rfl rfl rfl
    (by norm_num [cfg_num, lookupA, all_responses_of, possible_identities])
    (by decide) (by decide)

theorem foldl_preserve {α β : Type} (P : α → Prop) (f : α → β → α) :
    ∀ (l : List β) (a : α), P a →
      (∀ x b, b ∈ l → P x → P (f x b)) → P (l.foldl f a) := by
  intro l
  induction l with
  | nil => intro a h0 _; exact h0
  | cons b t ih =>
    intro a h0 hstep
    rw [List.foldl_cons]
    exact ih (f a b) (hstep a b (List.mem_cons_self b t) h0)
      (fun x b' hb' => hstep x b' (List.mem_cons_of_mem _ hb'))

theorem raw_sender_pairs_good (records : List TrackRecord) :
    ∀ p ∈ raw_sender_pairs records, goodAddr p.2 := by
  intro p hp
  rw [raw_sender_pairs, List.mem_flatMap] at hp
  obtain ⟨r, -, hpr⟩ := hp
  rw [List.mem_append] at hpr
  rcases hpr with h | h
  · split_ifs at h with h1 h2 h3
    · rw [List.mem_singleton] at h
      subst h
      exact ⟨by rw [hasAt_sLower]; exact h2.1, sLower_idem _⟩
    · rw [List.mem_singleton] at h
      subst h
      exact ⟨by rw [hasAt_sLower]; exact h3.1, sLower_idem _⟩
    · simp at h
    · simp at h
  · split_ifs at h with h1
    · rw [List.mem_singleton] at h
      subst h
      exact ⟨by rw [hasAt_sLower]; exact h1.2.2, sLower_idem _⟩
    · simp at h

theorem addToMultimap_good {m : List (String × List String)} {k e : String}
    (hm : MMGood m) (he : goodAddr e) : MMGood (addToMultimap m k e) := by
  induction m with
  | nil =>
    intro p hp
    rw [addToMultimap, List.mem_singleton] at hp
    subst hp
    intro e' he'
    rw [List.mem_singleton] at he'
    subst he'
    exact he
  | cons hd tl ih =>
    obtain ⟨k', es⟩ := hd
    intro p hp
    rw [addToMultimap] at hp
    by_cases hk : k' = k
    · rw [if_pos hk] at hp
      rcases List.mem_cons.mp hp with rfl | hp'
      · intro e' he'
        by_cases hc : es.contains e
        · rw [if_pos hc] at he'
          exact hm (k', es) (List.mem_cons_self _ _) e' he'
        · rw [if_neg hc, List.mem_append] at he'
          rcases he' with h' | h'
          · exact hm (k', es) (List.mem_cons_self _ _) e' h'
          · rw [List.mem_singleton] at h'
            subst h'
            exact he
      · exact hm p (List.mem_cons_of_mem _ hp')
    · rw [if_neg hk] at hp
      rcases List.mem_cons.mp hp with rfl | hp'
      · exact hm (k', es) (List.mem_cons_self _ _)
      · exact ih (fun q hq => hm q (List.mem_cons_of_mem _ hq)) p hp'

theorem mapInsert_good {m : ContactMap} {k v : String}
    (hm : CMGood m) (hv : goodAddr v) : CMGood (mapInsert m k v) := by
  induction m with
  | nil =>
    intro p hp
    rw [mapInsert, List.mem_singleton] at hp
    subst hp
    exact hv
  | cons hd tl ih =>
    obtain ⟨k', v'⟩ := hd
    intro p hp
    rw [mapInsert] at hp
    by_cases hk : k' = k
    · rw [if_pos hk] at hp
      rcases List.mem_cons.mp hp with rfl | hp'
      · exact hv
      · exact hm p (List.mem_cons_of_mem _ hp')
    · rw [if_neg hk] at hp
      rcases List.mem_cons.mp hp with rfl | hp'
      · exact hm (k', v') (List.mem_cons_self _ _)
      · exact ih (fun q hq => hm q (List.mem_cons_of_mem _ hq)) p hp'

theorem name_to_emails_good (records : List TrackRecord) :
    MMGood (name_to_emails records) := by
  simp only [name_to_emails]
  apply foldl_preserve MMGood
  · -- the map after the pairwise correspondence pass
    apply foldl_preserve MMGood
    · -- the map seeded from the raw sender pairs
      apply foldl_preserve MMGood
      · intro p hp
        simp at hp
      · intro m q hq hmm
        exact addToMultimap_good hmm (raw_sender_pairs_good records q hq)
    · -- one record of the pairwise pass
      intro m data _ hmm
      by_cases hs : pyStrip data.sender = ""
      · rw [if_pos hs]
        exact hmm
      · rw [if_neg hs]
        by_cases ha : hasAt (pyStrip data.sender) = true
        · rw [if_pos ha]
          apply foldl_preserve MMGood _ _ _ hmm
          intro m' other _ hmm'
          by_cases hcond : pyStrip other.sender ≠ "" ∧
              ¬ (hasAt (pyStrip other.sender) = true)
          · rw [if_pos hcond]
            by_cases hmatch : correspondenceMatch (sLower (pyStrip
                other.sender)) (localPart (sLower (pyStrip data.sender))) =
                true
            · rw [if_pos hmatch]
              exact addToMultimap_good hmm'
                ⟨by rw [hasAt_sLower]; exact ha, sLower_idem _⟩
            · rw [if_neg hmatch]
              exact hmm'
          · rw [if_neg hcond]
            exact hmm'
        · rw [if_neg ha]
          apply foldl_preserve MMGood _ _ _ hmm
          intro m' other _ hmm'
          by_cases hcond : pyStrip other.sender ≠ "" ∧
              hasAt (pyStrip other.sender) = true
          · rw [if_pos hcond]
            by_cases hmatch : correspondenceMatch (sLower (pyStrip
                data.sender)) (localPart (sLower (pyStrip other.sender))) =
                true
            · rw [if_pos hmatch]
              exact addToMultimap_good hmm'
                ⟨by rw [hasAt_sLower]; exact hcond.2, sLower_idem _⟩
            · rw [if_neg hmatch]
              exact hmm'
          · rw [if_neg hcond]
            exact hmm'
  · -- the name-component pass over the key snapshot
    intro m name _ hmm
    apply foldl_preserve MMGood _ _ _ hmm
    intro m' data _ hmm'
    by_cases hcond : hasAt (sLower data.sender) = true ∧
        (nameWordsOf name).any
          (fun w => hasSub w (sLower data.sender).data) = true
    · rw [if_pos hcond]
      exact addToMultimap_good hmm' ⟨hcond.1, sLower_idem _⟩
    · rw [if_neg hcond]
      exact hmm'

theorem resolve_fold_mem (name : String) :
    ∀ (l : List String) (acc : Option (String × Nat)) (e : String) (s : Nat),
      l.foldl (fun acc e =>
        let sc := match_score name e
        match acc with
        | none => if sc > 0 then some (e, sc) else none
        | some (_, bs) => if sc > bs then some (e, sc) else acc) acc =
        some (e, s) →
      (∃ s0, acc = some (e, s0)) ∨ e ∈ l := by
  intro l
  induction l with
  | nil =>
    intro acc e s h
    left
    exact ⟨s, h⟩
  | cons x xs ih =>
    intro acc e s h
    rw [List.foldl_cons] at h
    rcases ih _ e s h with ⟨s0, h0⟩ | hm
    · cases acc with
      | none =>
        simp only at h0
        split_ifs at h0 with hsc
        · injection h0 with h1
          injection h1 with h2 h3
          subst h2
          right
          exact List.mem_cons_self x xs
      | some p =>
        obtain ⟨be, bs⟩ := p
        simp only at h0
        split_ifs at h0 with hsc
        · injection h0 with h1
          injection h1 with h2 h3
          subst h2
          right
          exact List.mem_cons_self x xs
        · injection h0 with h1
          injection h1 with h2 h3
          subst h2
          left
          exact ⟨bs, rfl⟩
    · right
      exact List.mem_cons_of_mem _ hm

theorem resolve_best_mem {name : String} {emails : List String}
    {e : String} {s : Nat} (h : resolve_best name emails = some (e, s)) :
    e ∈ emails := by
  rw [resolve_best] at h
  rcases resolve_fold_mem name emails none e s h with ⟨s0, h0⟩ | hm
  · exact absurd h0 (by simp)
  · exact hm

theorem step3_good {n2e : List (String × List String)} (h : MMGood n2e) :
    CMGood (step3 n2e) := by
  rw [step3]
  apply foldl_preserve CMGood
  · intro p hp
    simp at hp
  · intro m p hp hcm
    by_cases hne : p.2 ≠ []
    · rw [if_pos hne]
      cases hrb : resolve_best p.1 p.2 with
      | none => exact hcm
      | some q =>
        obtain ⟨be, bs⟩ := q
        dsimp only
        by_cases hok : be ≠ "" ∧ bs ≥ 1
        · rw [if_pos hok]
          exact mapInsert_good hcm (h p hp be (resolve_best_mem hrb))
        · rw [if_neg hok]
          exact hcm
    · rw [if_neg hne]
      exact hcm

theorem step4_good {m : ContactMap} {pairs : List (String × String)}
    (hm : CMGood m) (hp : ∀ q ∈ pairs, sLower q.2 = q.2) :
    CMGood (step4 m pairs) := by
  rw [step4]
  apply foldl_preserve CMGood _ _ _ hm
  intro x q hq hcm
  by_cases hval : q.1 ≠ "" ∧ q.2 ≠ "" ∧ hasAt q.2
  · rw [if_pos hval]
    cases lookupA x q.1 with
    | none => exact mapInsert_good hcm ⟨hval.2.2, hp q hq⟩
    | some _ => exact hcm
  · rw [if_neg hval]
    exact hcm

/-- The alias map built by `_initialize_contact_map` satisfies the value
invariant assumed by the idempotence theorem for `_normalize_contact`:
every stored address contains `@` and is already lowercase. -/
theorem contact_map_value_invariant (records : List TrackRecord) :
    ∀ p ∈ initialize_contact_map records,
      hasAt p.2 = true ∧ sLower p.2 = p.2 := by
  rw [initialize_contact_map]
  exact step4_good (step3_good (name_to_emails_good records))
    (fun q hq => (raw_sender_pairs_good records q hq).2)

/-- On a later scan the direct pairs captured from observed messages win:
a name carried by some valid pair ends up mapped to the last such pair's
address (overwriting whatever the map held), and a name carried by none
keeps its previous mapping.  In particular no fuzzy result ever
overwrites a direct pair after the initial build, which only ever runs on
an empty map. -/
theorem lookupA_inbox_update (pairs : List (String × String))
    (m : ContactMap) (name : String) :
    lookupA (inbox_update_contact_map m pairs) name =
      match lastValidPair name pairs with
      | some e => some e
      | none => lookupA m name := by
  induction pairs generalizing m with
  | nil =>
    simp only [inbox_update_contact_map, List.foldl_nil, lastValidPair]
  | cons p ps ih =>
    obtain ⟨dn, e⟩ := p
    simp only [inbox_update_contact_map, List.foldl_cons] at *
    by_cases hval : dn ≠ "" ∧ e ≠ "" ∧ hasAt e
    · rw [if_pos hval, ih, lastValidPair]
      cases hlast : lastValidPair name ps with
      | some e' => rfl
      | none =>
        rw [lookupA_mapInsert]
        by_cases hne : dn = name
        · subst hne
          simp [hval]
        · simp [hne, hval]
    · rw [if_neg hval, ih, lastValidPair]
      cases hlast : lastValidPair name ps with
      | some e' => rfl
      | none =>
        have : ¬ ((dn ≠ "" ∧ e ≠ "" ∧ hasAt e) ∧ dn = name) :=
          fun hc => hval hc.1
        rw [if_neg this]
